import Mathlib

/-!
Shallow embedding of the memora-backend bookmark API (TypeScript + Prisma/SQLite)
relational core, translated from the repository sources:

* `src/handlers/collectionHandler.ts` — createCollection / updateCollection /
  deleteCollection (cascade reassigning bookmarks to the per-user system
  "Unsorted" collection),
* the current `src/handlers/bookmarkHandler.ts` (the unnamed source file that
  exports `getTotalBookmarksCount` required by `src/routes/bookmarks.ts`) —
  addBookmark / updateBookmark,
* `src/handlers/tagHandler.ts` — createTag,
* `src/handlers/authHandler.ts` — registerUser / seedUserData,
* `src/lib/metadataFetcher.ts` — fetchMetadata,
* `prisma/schema.prisma` — the data model (User, Bookmark, Tag, Collection and
  the two implicit many-to-many join tables).

The database is a record of lists; cuid identifiers become naturals drawn from
a `nextId` counter; JSON request bodies become optional fields.  The Prisma
`$transaction` combinator (external, persistence engine treated as a
transactional relational store) is modelled by `runTx`, which applies a list of
primitive writes all-or-nothing under an abstract per-operation failure oracle.
Handlers return the HTTP status code they send plus the post-state.
-/

namespace Memora

/-- A user row (`model User`): only the fields the claims touch. -/
structure User where
  id : Nat
  email : String
  deriving Repr, DecidableEq

/-- A collection row (`model Collection`). -/
structure Collection where
  id : Nat
  name : String
  userId : Nat
  isSystem : Bool
  deriving Repr, DecidableEq

/-- A tag row (`model Tag`). -/
structure Tagg where
  id : Nat
  name : String
  userId : Nat
  deriving Repr, DecidableEq

/-- A bookmark row (`model Bookmark`); `title`, `description`, `imageUrl`
are nullable in the schema. -/
structure Bookmark where
  id : Nat
  url : String
  title : Option String
  description : Option String
  imageUrl : Option String
  userId : Nat
  deriving Repr, DecidableEq

/-- The relational store: rows plus the two implicit many-to-many join tables
(`_BookmarkTags`, `_BookmarkCollections`), as lists in insertion order, and a
fresh-id counter standing for cuid generation. -/
structure St where
  users : List User
  collections : List Collection
  tags : List Tagg
  bookmarks : List Bookmark
  bookmarkTags : List (Nat × Nat)
  bookmarkCollections : List (Nat × Nat)
  nextId : Nat
  deriving Repr, DecidableEq

/-- JavaScript whitespace as far as the handlers meet it (`trim`, `\s`). -/
def wsChar (c : Char) : Bool :=
  c == ' ' || c == '\t' || c == '\n' || c == '\r' || c == '\x0b' || c == '\x0c'

/-- `String.prototype.trim`: strip whitespace from both ends. -/
def trimList (l : List Char) : List Char :=
  ((l.dropWhile wsChar).reverse.dropWhile wsChar).reverse

/-- `name.trim()`. -/
def strTrim (s : String) : String := ⟨trimList s.data⟩

/-- ASCII lowercasing of one character (`toLowerCase` on the names the
handlers compare). -/
def lowerChar (c : Char) : Char :=
  if 'A' ≤ c && c ≤ 'Z' then Char.ofNat (c.toNat + 32) else c

/-- `name.trim().toLowerCase()` as used by the handlers. -/
def normName (s : String) : String := ⟨(trimList s.data).map lowerChar⟩

/-- `s.substring(0, n)` / `s.slice(0, n)`. -/
def strTake (s : String) (n : Nat) : String := ⟨s.data.take n⟩

/-- Prisma `connect` on an implicit many-to-many relation: the join table has
a unique index on the pair, so connecting an already linked pair adds no
second row. -/
def connectLink (bid other : Nat) (l : List (Nat × Nat)) : List (Nat × Nat) :=
  if (bid, other) ∈ l then l else l ++ [(bid, other)]

/-- Prisma `disconnect`: remove the link row for the pair. -/
def disconnectLink (bid other : Nat) (l : List (Nat × Nat)) : List (Nat × Nat) :=
  l.filter (fun p => p ≠ (bid, other))

/-- One element of the `deleteCollection` transaction array:
`db.bookmark.update({where: {id: bid}, data: {collections: {disconnect: [{id: cid}],
connect: [{id: sysId}]}}})`. -/
def reassignOp (cid sysId bid : Nat) (s : St) : St :=
  { s with bookmarkCollections :=
      connectLink bid sysId (disconnectLink bid cid s.bookmarkCollections) }

/-- Final element of the transaction array: `db.collection.delete({where: {id: cid}})`. -/
def deleteRowOp (cid : Nat) (s : St) : St :=
  { s with collections := s.collections.filter (fun c => c.id ≠ cid) }

/-- Modelled from the spec: the persistence engine is out of scope and is
"treated as a transactional relational store", so `db.$transaction([...])`
runs the listed writes all-or-nothing.  `fail i` says whether the i-th write
fails mid-transaction; the first failure aborts the whole batch (`none`, the
caller keeps the pre-state). -/
def runTx (fail : Nat → Bool) : List (St → St) → Nat → St → Option St
  | [], _, s => some s
  | op :: rest, i, s => if fail i then none else runTx fail rest (i + 1) (op s)

/-- The `db.$transaction([...bookmarks.map(update), collection.delete])` step
of `deleteCollection`: on any mid-transaction failure the handler falls into
its catch block and answers 500 with the store rolled back. -/
def deleteCollectionTx (fail : Nat → Bool) (cid sysId : Nat) (bids : List Nat)
    (s : St) : Nat × St :=
  match runTx fail (bids.map (fun bid => reassignOp cid sysId bid) ++ [deleteRowOp cid]) 0 s with
  | none => (500, s)
  | some s2 => (200, s2)

/-- `deleteCollection` from `src/handlers/collectionHandler.ts`: look the
collection up by id, 404 unless owned by the caller, 403 when its name trims
and lowercases to "unsorted", 500 when no `isSystem` collection exists for the
user, otherwise reassign every bookmark linked to it (found without a user
filter, as in the source) and delete the row, all inside one transaction. -/
def deleteCollection (fail : Nat → Bool) (u cid : Nat) (s : St) : Nat × St :=
  match s.collections.find? (fun c => c.id == cid) with
  | none => (404, s)
  | some col =>
    if col.userId ≠ u then (404, s)
    else if normName col.name = "unsorted" then (403, s)
    else
      match s.collections.find? (fun c => c.userId == u && c.isSystem) with
      | none => (500, s)
      | some sys =>
        let bids := (s.bookmarks.filter
          (fun b => (b.id, cid) ∈ s.bookmarkCollections)).map (fun b => b.id)
        deleteCollectionTx fail cid sys.id bids s

/-- `updateCollection` from `src/handlers/collectionHandler.ts`.  The body is
`{id, name}`; a missing `name` makes `name.trim()` throw, which the generic
catch turns into 500.  The 403 guard tests whether the NEW name trims and
lowercases to "unsorted" — it does not inspect the target collection.  Then id
and name are validated, a same-owner name conflict is 409, and
`updateMany({where: {id, userId}})` renames (404 when it matched no row). -/
def updateCollection (u : Nat) (id : Option Nat) (name : Option String) (s : St) :
    Nat × St :=
  match name with
  | none => (500, s)
  | some nm =>
    if normName nm = "unsorted" then (403, s)
    else
      match id with
      | none => (400, s)
      | some cid =>
        if strTrim nm = "" then (400, s)
        else if (s.collections.find?
            (fun c => c.userId == u && c.name == strTrim nm && !(c.id == cid))).isSome
          then (409, s)
        else if (s.collections.filter (fun c => c.id == cid && c.userId == u)).length = 0
          then (404, s)
        else
          let renamed := s.collections.map
            (fun c => if c.id == cid && c.userId == u then { c with name := strTrim nm } else c)
          (200, { s with collections := renamed })

/-- `createTag` from `src/handlers/tagHandler.ts`: rejects falsy names, then
checks for an existing tag with the SAME raw (unnormalized) name that is
linked to some bookmark of the caller, and otherwise stores the submitted
name verbatim. -/
def createTag (u : Nat) (name : Option String) (s : St) : Nat × St :=
  match name with
  | none => (400, s)
  | some nm =>
    if nm = "" then (400, s)
    else if (s.tags.find? (fun t => t.name == nm &&
        s.bookmarks.any (fun b => b.userId == u && (b.id, t.id) ∈ s.bookmarkTags))).isSome
      then (409, s)
    else (201, { s with tags := s.tags ++ [⟨s.nextId, nm, u⟩], nextId := s.nextId + 1 })

/-- One incoming tag reference of a bookmark update: `{id?, name}`. -/
structure TagInput where
  id : Option Nat
  name : String
  deriving Repr, DecidableEq

/-- One incoming collection reference of a bookmark update: `{id}`. -/
structure CollectionInput where
  id : Nat
  deriving Repr, DecidableEq

/-- Body of `PUT /bookmarks/:id`; a missing JSON field is `none`. -/
structure UpdateBody where
  title : Option String
  description : Option String
  imageUrl : Option String
  tags : Option (List TagInput)
  collections : Option (List CollectionInput)
  deriving Repr, DecidableEq

/-- Name-keyed branch of tag resolution in `updateBookmark`:
`db.tag.findFirst({where: {name: tagName, userId}})`, else
`db.tag.create({data: {name: tagName, userId}})`. -/
def resolveByName (u : Nat) (tagName : String) (s : St) : Nat × St :=
  match s.tags.find? (fun t => t.name == tagName && t.userId == u) with
  | some t => (t.id, s)
  | none => (s.nextId, { s with tags := s.tags ++ [⟨s.nextId, tagName, u⟩],
                                nextId := s.nextId + 1 })

/-- Resolution of one incoming tag reference in `updateBookmark`: when an id
is supplied, `db.tag.findUnique({where: {id}})` (no owner filter) and the id
is used whenever such a tag exists; otherwise fall back to the per-owner
lookup/create by `tag.name.trim().toLowerCase()`. -/
def resolveTag (u : Nat) (tin : TagInput) (s : St) : Nat × St :=
  let tagName := normName tin.name
  match tin.id with
  | some tid =>
    match s.tags.find? (fun t => t.id == tid) with
    | some t => (t.id, s)
    | none => resolveByName u tagName s
  | none => resolveByName u tagName s

/-- Sequential resolution of the whole incoming tag list (the source gathers
the per-tag promises with `Promise.all`). -/
def resolveTags (u : Nat) : List TagInput → St → List Nat × St
  | [], s => ([], s)
  | t :: ts, s =>
    let r := resolveTag u t s
    let rest := resolveTags u ts r.2
    (r.1 :: rest.1, rest.2)

/-- Replace-set write on a join table for one bookmark: drop every link row of
the bookmark, then connect each given id (idempotently, unique index).  This
is Prisma `set:` for collections and the `disconnect` all + `connect` resolved
combination for tags. -/
def setLinks (bid : Nat) (ids : List Nat) (l : List (Nat × Nat)) : List (Nat × Nat) :=
  ids.foldl (fun acc d => if (bid, d) ∈ acc then acc else acc ++ [(bid, d)])
    (l.filter (fun p => p.1 ≠ bid))

/-- `updateBookmark` from the current bookmark handler: 404 unless the
bookmark exists and is owned by the caller; incoming collection ids are
filtered to those owned by the caller (only queried when the list is
nonempty); scalars are patched with `??`; the collection links are replaced
exactly when `collections` was supplied, and likewise the tag links
(disconnect all current, connect the resolved set) exactly when `tags` was
supplied. -/
def updateBookmark (u bid : Nat) (body : UpdateBody) (s : St) : Nat × St :=
  match s.bookmarks.find? (fun b => b.id == bid && b.userId == u) with
  | none => (404, s)
  | some _ =>
    let validCollectionIds :=
      match body.collections with
      | some l =>
        if 0 < l.length then
          (s.collections.filter
            (fun c => (l.map (fun ci => ci.id)).contains c.id && c.userId == u)).map
              (fun c => c.id)
        else []
      | none => []
    let resolved :=
      match body.tags with
      | some tins => resolveTags u tins s
      | none => ([], s)
    let s1 := resolved.2
    let newBookmarks := s1.bookmarks.map (fun b =>
      if b.id == bid then
        { b with title := body.title.or b.title,
                 description := body.description.or b.description,
                 imageUrl := body.imageUrl.or b.imageUrl }
      else b)
    let newBkT := match body.tags with
      | some _ => setLinks bid resolved.1 s1.bookmarkTags
      | none => s1.bookmarkTags
    let newBkC := match body.collections with
      | some _ => setLinks bid validCollectionIds s1.bookmarkCollections
      | none => s1.bookmarkCollections
    (200, { s1 with bookmarks := newBookmarks,
                    bookmarkTags := newBkT,
                    bookmarkCollections := newBkC })

/-- Result type of the metadata fetcher (`Metadata` in
`src/lib/metadataFetcher.ts`). -/
structure Metadata where
  title : Option String
  description : Option String
  imageUrl : Option String
  deriving Repr, DecidableEq

/-- Abstract outcome of the HTTP fetch (external I/O): either the fetch (or
reading the body) threw — network error, or the 10s timer aborted the request
— or a response arrived with its `ok` flag, `content-type` header, and the
page data the cheerio extraction step would produce.  `rawTitle` / `rawDesc`
are extraction results and are never the empty string (the extractor skips
falsy values); `imageResolves` / `resolvedImage` stand for
`new URL(rawImage, res.url)`. -/
structure PageData where
  rawTitle : Option String
  rawDesc : Option String
  rawImage : Option String
  imageResolves : Bool
  resolvedImage : String
  deriving Repr, DecidableEq

inductive FetchOutcome where
  | err : FetchOutcome
  | resp (ok : Bool) (contentType : String) (page : PageData) : FetchOutcome
  deriving Repr, DecidableEq

/-- `contentType.includes("html")`. -/
def containsSub (s pat : String) : Bool := decide (pat.data <:+: s.data)

/-- `fetchMetadata` from `src/lib/metadataFetcher.ts`: any thrown error or
timeout is caught and becomes `{}`; a non-ok response or a non-"html"
content type returns `{}`; otherwise titles are truncated to 255 and
descriptions to 1024 characters, and a discovered image reference that fails
to resolve against the response URL is dropped. -/
def fetchMetadata (o : FetchOutcome) : Metadata :=
  match o with
  | .err => ⟨none, none, none⟩
  | .resp ok ct page =>
    if !ok then ⟨none, none, none⟩
    else if !containsSub ct ("html") then ⟨none, none, none⟩
    else
      { title := page.rawTitle.map (fun t => strTake t 255)
        description := page.rawDesc.map (fun d => strTake d 1024)
        imageUrl :=
          match page.rawImage with
          | none => none
          | some _ => if page.imageResolves then some page.resolvedImage else none }

/-- JavaScript `a || b` for the string-valued `metadata.title || url.substring(0, 100)`:
an absent or empty title is falsy. -/
def jsOr (a : Option String) (b : String) : String :=
  match a with
  | some t => if t = "" then b else t
  | none => b

/-- `addBookmark` from the current bookmark handler: validate that `url` is a
non-empty string (400), pre-check `(userId, url)` uniqueness (409), fetch
metadata, seed the default tag/collection from the most recently created
bookmark of the caller (its first linked collection and first linked tag),
and create the row with the title falling back to the first 100 characters of
the url.  `createErr` is the storage outcome of the create: a `P2002`
unique-constraint violation (a concurrent insert between check and create) is
caught and mapped to 409, any other storage error to 500. -/
def addBookmark (createErr : Option Nat) (u : Nat) (url : Option String)
    (fo : FetchOutcome) (s : St) : Nat × St :=
  match url with
  | none => (400, s)
  | some url =>
    if url = "" then (400, s)
    else
      match s.bookmarks.find? (fun b => b.userId == u && b.url == url) with
      | some _ => (409, s)
      | none =>
        let metadata := fetchMetadata fo
        let recent := (s.bookmarks.filter (fun b => b.userId == u)).getLast?
        let defaultCollection :=
          match recent with
          | some rb => ((s.bookmarkCollections.filter (fun p => p.1 == rb.id)).map
              (fun p => p.2)).head?
          | none => none
        let defaultTag :=
          match recent with
          | some rb => ((s.bookmarkTags.filter (fun p => p.1 == rb.id)).map
              (fun p => p.2)).head?
          | none => none
        match createErr with
        | some 2002 => (409, s)
        | some _ => (500, s)
        | none =>
          let nid := s.nextId
          let nb : Bookmark :=
            ⟨nid, url, some (jsOr metadata.title (strTake url 100)),
             metadata.description, metadata.imageUrl, u⟩
          let bkC := match defaultCollection with
            | some cd => connectLink nid cd s.bookmarkCollections
            | none => s.bookmarkCollections
          let bkT := match defaultTag with
            | some td => connectLink nid td s.bookmarkTags
            | none => s.bookmarkTags
          (201, { s with bookmarks := s.bookmarks ++ [nb],
                         bookmarkCollections := bkC,
                         bookmarkTags := bkT,
                         nextId := nid + 1 })

/-- Character class `[^\s@]`. -/
def plainChar (c : Char) : Bool := !wsChar c && !(c == '@')

/-- Split a character list at every occurrence of a separator character. -/
def splitChars (sep : Char) : List Char → List (List Char)
  | [] => [[]]
  | c :: cs =>
    let rest := splitChars sep cs
    if c == sep then [] :: rest
    else
      match rest with
      | [] => [[c]]
      | h :: t => (c :: h) :: t

/-- The registration email regex `^[^\s@]+@[^\s@]+\.[^\s@]+$`: one `@`
splitting a nonempty local part from a domain part that contains a dot with
at least one character on each side (dots may themselves appear in either
segment, since `.` lies in `[^\s@]`). -/
def emailOk (e : String) : Bool :=
  match splitChars '@' e.data with
  | [l, r] =>
    !l.isEmpty && l.all plainChar && r.all plainChar &&
      ((r.drop 1).dropLast).contains '.'
  | _ => false

/-- `seedUserData` from `src/handlers/authHandler.ts`: create one collection
"Unsorted" with `isSystem: true` and the default tags "Read Later",
"Important", "Favorites" via `Promise.all`; every error is caught and
swallowed.  `fail i` says whether the i-th create rejects; the creates are
independent (no transaction), so each failed create simply leaves its row
missing. -/
def seedUserData (fail : Nat → Bool) (uid : Nat) (s : St) : St :=
  let s1 := if fail 0 then s else
    { s with collections := s.collections ++ [⟨s.nextId, "Unsorted", uid, true⟩],
             nextId := s.nextId + 1 }
  let addTag := fun (st : St) (i : Nat) (nm : String) =>
    if fail i then st else
      { st with tags := st.tags ++ [⟨st.nextId, nm, uid⟩], nextId := st.nextId + 1 }
  addTag (addTag (addTag s1 1 ("Read Later")) 2 ("Important")) 3 ("Favorites")

/-- `registerUser` from `src/handlers/authHandler.ts`: validate presence and
email shape (400), reject an email already in use (409), create the user,
run `seedUserData` (whose failures are swallowed), and answer 201. -/
def registerUser (fail : Nat → Bool) (email password : Option String) (s : St) :
    Nat × St :=
  match email, password with
  | some e, some p =>
    if e = "" || p = "" then (400, s)
    else if !emailOk e then (400, s)
    else if (s.users.find? (fun u => u.email == e)).isSome then (409, s)
    else
      let uid := s.nextId
      let s1 := { s with users := s.users ++ [⟨uid, e⟩], nextId := uid + 1 }
      (201, seedUserData fail uid s1)
  | _, _ => (400, s)

/-! Helper lemmas about the transactional runner and the cascade. -/

theorem runTx_some_eq_foldl (fail : Nat → Bool) (l : List (St → St)) (i : Nat) (s s2 : St)
    (h : runTx fail l i s = some s2) : s2 = l.foldl (fun st op => op st) s := by
  induction l generalizing i s with
  | nil => simpa [runTx] using h.symm
  | cons op rest ih =>
    by_cases hf : fail i
    · simp [runTx, hf] at h
    · simp only [runTx, hf, if_false] at h
      simpa using ih (i + 1) (op s) h

theorem runTx_nofail (l : List (St → St)) (i : Nat) (s : St) :
    runTx (fun _ => false) l i s = some (l.foldl (fun st op => op st) s) := by
  induction l generalizing i s with
  | nil => rfl
  | cons op rest ih => simp [runTx, ih]

/-- Pure effect of the reassignment prefix of the transaction on the
bookmark-collection join table. -/
def reassignAll (cid sysId : Nat) (bids : List Nat) (L : List (Nat × Nat)) :
    List (Nat × Nat) :=
  bids.foldl (fun acc bid => connectLink bid sysId (disconnectLink bid cid acc)) L

theorem fold_reassign_eq (cid sysId : Nat) (bids : List Nat) (s : St) :
    bids.foldl (fun st bid => reassignOp cid sysId bid st) s =
      { s with bookmarkCollections := reassignAll cid sysId bids s.bookmarkCollections } := by
  induction bids generalizing s with
  | nil => rfl
  | cons b bs ih => simpa [reassignAll, reassignOp] using ih (reassignOp cid sysId b s)

theorem mem_connect_disconnect (b sysId cid : Nat) (L : List (Nat × Nat)) (x : Nat × Nat) :
    x ∈ connectLink b sysId (disconnectLink b cid L) ↔
      x = (b, sysId) ∨ (x ∈ L ∧ x ≠ (b, cid)) := by
  unfold connectLink disconnectLink
  by_cases hmem : (b, sysId) ∈ L.filter (fun p => p ≠ (b, cid))
  · simp only [hmem, if_true]
    rw [List.mem_filter] at hmem ⊢
    constructor
    · intro hx; exact Or.inr ⟨hx.1, by simpa using hx.2⟩
    · rintro (rfl | hx)
      · exact ⟨hmem.1, hmem.2⟩
      · exact ⟨hx.1, by simpa using hx.2⟩
  · simp only [hmem, if_false, List.mem_append, List.mem_filter, List.mem_singleton]
    constructor
    · rintro (⟨h1, h2⟩ | h)
      · exact Or.inr ⟨h1, by simpa using h2⟩
      · exact Or.inl h
    · rintro (rfl | ⟨h1, h2⟩)
      · exact Or.inr rfl
      · exact Or.inl ⟨h1, by simpa using h2⟩

theorem mem_reassignAll (cid sysId : Nat) (hne : sysId ≠ cid) (bids : List Nat)
    (L : List (Nat × Nat)) (x : Nat × Nat) :
    x ∈ reassignAll cid sysId bids L ↔
      (x.2 = sysId ∧ x.1 ∈ bids) ∨ (x ∈ L ∧ ¬(x.2 = cid ∧ x.1 ∈ bids)) := by
  induction bids generalizing L with
  | nil => simp [reassignAll]
  | cons b bs ih =>
    obtain ⟨bx, dx⟩ := x
    have step : reassignAll cid sysId (b :: bs) L =
        reassignAll cid sysId bs (connectLink b sysId (disconnectLink b cid L)) := rfl
    rw [step, ih]
    simp only [mem_connect_disconnect, List.mem_cons, Prod.mk.injEq, ne_eq]
    constructor
    · rintro (⟨hd, hmem⟩ | ⟨(⟨h1, h2⟩ | ⟨hL, hne2⟩), hnot⟩)
      · exact Or.inl ⟨hd, Or.inr hmem⟩
      · exact Or.inl ⟨h2, Or.inl h1⟩
      · refine Or.inr ⟨hL, ?_⟩
        rintro ⟨hcid, (hb | hbs)⟩
        · exact hne2 (by simp [hb, hcid])
        · exact hnot ⟨hcid, hbs⟩
    · rintro (⟨hd, (hb | hbs)⟩ | ⟨hL, hnot⟩)
      · refine Or.inr ⟨Or.inl ⟨hb, hd⟩, ?_⟩
        rintro ⟨hcid, _⟩
        exact hne (hd ▸ hcid)
      · exact Or.inl ⟨hd, hbs⟩
      · by_cases hx : bx = b ∧ dx = cid
        · exact absurd ⟨hx.2, Or.inl hx.1⟩ hnot
        · refine Or.inr ⟨Or.inr ⟨hL, hx⟩, ?_⟩
          rintro ⟨hcid, hbs⟩
          exact hnot ⟨hcid, Or.inr hbs⟩

theorem nodup_reassignAll (cid sysId : Nat) (bids : List Nat) (L : List (Nat × Nat))
    (h : L.Nodup) : (reassignAll cid sysId bids L).Nodup := by
  induction bids generalizing L with
  | nil => simpa [reassignAll]
  | cons b bs ih =>
    have step : reassignAll cid sysId (b :: bs) L =
        reassignAll cid sysId bs (connectLink b sysId (disconnectLink b cid L)) := rfl
    rw [step]
    refine ih _ ?_
    unfold connectLink disconnectLink
    split
    · exact h.filter _
    · rename_i hnm
      rw [List.nodup_append]
      refine ⟨h.filter _, List.nodup_singleton _, ?_⟩
      intro x hx hx1
      rw [List.mem_singleton] at hx1
      exact hnm (hx1 ▸ hx)

/-- The complete effect of a failure-free cascade: every listed bookmark is
detached from `cid` and attached to `sysId`, then the collection row is
removed. -/
def cascadeResult (cid sysId : Nat) (bids : List Nat) (s : St) : St :=
  deleteRowOp cid
    { s with bookmarkCollections := reassignAll cid sysId bids s.bookmarkCollections }

theorem foldl_map_reassign (cid sysId : Nat) (bids : List Nat) (s : St) :
    (bids.map (fun bid => reassignOp cid sysId bid)).foldl (fun st op => op st) s =
      bids.foldl (fun st bid => reassignOp cid sysId bid st) s := by
  induction bids generalizing s with
  | nil => rfl
  | cons b bs ih => simpa using ih (reassignOp cid sysId b s)

theorem foldl_ops_eq_cascade (cid sysId : Nat) (bids : List Nat) (s : St) :
    ((bids.map (fun bid => reassignOp cid sysId bid) ++ [deleteRowOp cid]).foldl
        (fun st op => op st) s) = cascadeResult cid sysId bids s := by
  rw [List.foldl_append]
  rw [foldl_map_reassign]
  rw [fold_reassign_eq]
  rfl

theorem tx_cases (fail : Nat → Bool) (cid sysId : Nat) (bids : List Nat) (s : St) :
    deleteCollectionTx fail cid sysId bids s = (500, s) ∨
      deleteCollectionTx fail cid sysId bids s = (200, cascadeResult cid sysId bids s) := by
  unfold deleteCollectionTx
  cases htx : runTx fail (bids.map (fun bid => reassignOp cid sysId bid) ++ [deleteRowOp cid]) 0 s with
  | none => exact Or.inl rfl
  | some s2 =>
    refine Or.inr ?_
    rw [runTx_some_eq_foldl _ _ _ _ _ htx, foldl_ops_eq_cascade]

theorem tx_nofail (cid sysId : Nat) (bids : List Nat) (s : St) :
    deleteCollectionTx (fun _ => false) cid sysId bids s =
      (200, cascadeResult cid sysId bids s) := by
  unfold deleteCollectionTx
  rw [runTx_nofail]
  rw [foldl_ops_eq_cascade]

/-- C2: every branch of `deleteCollection` either leaves the store exactly as
it was, or produces exactly the state of a failure-free run (all bookmark
reassignments together with the removal of the collection row); no
intermediate state is observable under any mid-transaction failure
pattern. -/
theorem deleteCollection_atomic (fail : Nat → Bool) (u cid : Nat) (s : St) :
    (deleteCollection fail u cid s).2 = s ∨
      deleteCollection fail u cid s = deleteCollection (fun _ => false) u cid s := by
  unfold deleteCollection
  cases hfind : s.collections.find? (fun c => c.id == cid) with
  | none => exact Or.inl rfl
  | some col =>
    simp only []
    by_cases hu : col.userId ≠ u
    · simp only [if_pos hu]; exact Or.inl trivial
    · simp only [if_neg hu]
      by_cases hn : normName col.name = "unsorted"
      · simp only [if_pos hn]; exact Or.inl trivial
      · simp only [if_neg hn]
        cases hsys : s.collections.find? (fun c => c.userId == u && c.isSystem) with
        | none => exact Or.inl rfl
        | some sys =>
          simp only []
          rcases tx_cases fail cid sys.id
              ((s.bookmarks.filter (fun b => (b.id, cid) ∈ s.bookmarkCollections)).map
                (fun b => b.id)) s with h | h
          · rw [h]; exact Or.inl rfl
          · rw [h, tx_nofail]; exact Or.inr rfl

theorem deleteCollection_success (fail : Nat → Bool) (u cid : Nat) (s s2 : St)
    (h : deleteCollection fail u cid s = (200, s2)) :
    ∃ col sys,
      s.collections.find? (fun c => c.id == cid) = some col ∧
      col.userId = u ∧
      s.collections.find? (fun c => c.userId == u && c.isSystem) = some sys ∧
      s2 = cascadeResult cid sys.id
        ((s.bookmarks.filter (fun b => (b.id, cid) ∈ s.bookmarkCollections)).map
          (fun b => b.id)) s := by
  unfold deleteCollection at h
  split at h
  · simp at h
  · rename_i col hfind
    split at h
    · simp at h
    · rename_i hu
      split at h
      · simp at h
      · rename_i hname
        split at h
        · simp at h
        · rename_i sys hsysfind
          rcases tx_cases fail cid sys.id
              ((s.bookmarks.filter (fun b => (b.id, cid) ∈ s.bookmarkCollections)).map
                (fun b => b.id)) s with htx | htx
          · rw [htx] at h
            simp at h
          · rw [htx] at h
            refine ⟨col, sys, hfind, not_not.mp hu, hsysfind, ?_⟩
            exact (congrArg Prod.snd h).symm

/-- C1: when `deleteCollection` succeeds on a non-system collection owned by
the caller that has at least one linked bookmark, there is a system collection
of the caller such that afterwards every bookmark that was linked to the
deleted collection is linked to it, every link to another collection is
untouched (none lost, none gained), no link to the deleted collection
survives, the join table stays duplicate-free, and the collection row is
gone. -/
theorem deleteCollection_cascade_correct (fail : Nat → Bool) (u cid : Nat)
    (s s2 : St) (col : Collection)
    (hids : (s.collections.map Collection.id).Nodup)
    (hint : ∀ p ∈ s.bookmarkCollections, ∃ b ∈ s.bookmarks, b.id = p.1)
    (hnodupL : s.bookmarkCollections.Nodup)
    (hcolmem : col ∈ s.collections) (hcid : col.id = cid) (hown : col.userId = u)
    (hnonsys : col.isSystem = false)
    (hlinked : ∃ b ∈ s.bookmarks, (b.id, cid) ∈ s.bookmarkCollections)
    (hsucc : deleteCollection fail u cid s = (200, s2)) :
    ∃ sys ∈ s.collections, sys.userId = u ∧ sys.isSystem = true ∧
      (∀ bid, (bid, cid) ∈ s.bookmarkCollections → (bid, sys.id) ∈ s2.bookmarkCollections) ∧
      (∀ bid d, (bid, d) ∈ s.bookmarkCollections → d ≠ cid →
        (bid, d) ∈ s2.bookmarkCollections) ∧
      (∀ bid d, (bid, d) ∈ s2.bookmarkCollections →
        (bid, d) ∈ s.bookmarkCollections ∨ (d = sys.id ∧ (bid, cid) ∈ s.bookmarkCollections)) ∧
      (∀ bid, (bid, cid) ∉ s2.bookmarkCollections) ∧
      s2.bookmarkCollections.Nodup ∧
      (∀ c ∈ s2.collections, c.id ≠ cid) := by
  obtain ⟨col0, sys, hfind, hu, hsysfind, hs2⟩ :=
    deleteCollection_success fail u cid s s2 hsucc
  have hcol0mem : col0 ∈ s.collections := List.mem_of_find?_eq_some hfind
  have hcol0id : col0.id = cid := by simpa using List.find?_some hfind
  have hsysmem : sys ∈ s.collections := List.mem_of_find?_eq_some hsysfind
  have hsysp : sys.userId = u ∧ sys.isSystem = true := by
    have := List.find?_some hsysfind
    simpa using this
  have hne : sys.id ≠ cid := by
    intro hsid
    have hsyseq : sys = col :=
      List.inj_on_of_nodup_map hids hsysmem hcolmem (by rw [hsid, hcid])
    rw [hsyseq] at hsysp
    rw [hnonsys] at hsysp
    exact Bool.false_ne_true hsysp.2
  set bids := (s.bookmarks.filter (fun b => (b.id, cid) ∈ s.bookmarkCollections)).map
    (fun b => b.id) with hbids_def
  have hbkc : s2.bookmarkCollections =
      reassignAll cid sys.id bids s.bookmarkCollections := by
    rw [hs2]; rfl
  have hbids_mem : ∀ bid : Nat, (bid, cid) ∈ s.bookmarkCollections → bid ∈ bids := by
    intro bid hb
    obtain ⟨b, hbmem, hbid⟩ := hint (bid, cid) hb
    rw [hbids_def]
    refine List.mem_map.mpr ⟨b, List.mem_filter.mpr ⟨hbmem, ?_⟩, hbid⟩
    simp only [decide_eq_true_eq]
    rw [hbid]
    exact hb
  refine ⟨sys, hsysmem, hsysp.1, hsysp.2, ?_, ?_, ?_, ?_, ?_, ?_⟩
  · intro bid hb
    rw [hbkc, mem_reassignAll cid sys.id hne]
    exact Or.inl ⟨rfl, hbids_mem bid hb⟩
  · intro bid d hb hd
    rw [hbkc, mem_reassignAll cid sys.id hne]
    exact Or.inr ⟨hb, fun hcontra => hd hcontra.1⟩
  · intro bid d hb
    rw [hbkc, mem_reassignAll cid sys.id hne] at hb
    rcases hb with ⟨hd, hmem⟩ | ⟨hmem, _⟩
    · rw [hbids_def] at hmem
      obtain ⟨b, hbf, hbid⟩ := List.mem_map.mp hmem
      obtain ⟨hbmem, hbp⟩ := List.mem_filter.mp hbf
      simp only [decide_eq_true_eq] at hbp
      have hbid2 : b.id = bid := hbid
      exact Or.inr ⟨hd, hbid2 ▸ hbp⟩
    · exact Or.inl hmem
  · intro bid hb
    rw [hbkc, mem_reassignAll cid sys.id hne] at hb
    rcases hb with ⟨hd, _⟩ | ⟨hmem, hnot⟩
    · exact hne hd.symm
    · exact hnot ⟨rfl, hbids_mem bid hmem⟩
  · rw [hbkc]
    exact nodup_reassignAll cid sys.id bids s.bookmarkCollections hnodupL
  · intro c hc
    rw [hs2] at hc
    have hc2 := List.mem_filter.mp hc
    simpa using hc2.2

/-- Concrete store for the cascade witness: user 1 owns collection 2
("Reading", non-system) holding bookmark 7, and the seeded system
collection 3. -/
def cascadeSt : St :=
  ⟨[⟨1, "a@b.c"⟩], [⟨2, "Reading", 1, false⟩, ⟨3, "Unsorted", 1, true⟩], [],
   [⟨7, "https://example.com", none, none, none, 1⟩], [], [(7, 2)], 10⟩

/-- Witness for C1 at a concrete store: deleting collection 2 succeeds and the
cascade conclusions hold. -/
theorem deleteCollection_cascade_correct_witness :
    ∃ sys ∈ cascadeSt.collections, sys.userId = 1 ∧ sys.isSystem = true ∧
      (∀ bid, (bid, 2) ∈ cascadeSt.bookmarkCollections →
        (bid, sys.id) ∈ (deleteCollection (fun _ => false) 1 2 cascadeSt).2.bookmarkCollections) ∧
      (∀ bid d, (bid, d) ∈ cascadeSt.bookmarkCollections → d ≠ 2 →
        (bid, d) ∈ (deleteCollection (fun _ => false) 1 2 cascadeSt).2.bookmarkCollections) ∧
      (∀ bid d, (bid, d) ∈ (deleteCollection (fun _ => false) 1 2 cascadeSt).2.bookmarkCollections →
        (bid, d) ∈ cascadeSt.bookmarkCollections ∨
          (d = sys.id ∧ (bid, 2) ∈ cascadeSt.bookmarkCollections)) ∧
      (∀ bid, (bid, 2) ∉ (deleteCollection (fun _ => false) 1 2 cascadeSt).2.bookmarkCollections) ∧
      (deleteCollection (fun _ => false) 1 2 cascadeSt).2.bookmarkCollections.Nodup ∧
      (∀ c ∈ (deleteCollection (fun _ => false) 1 2 cascadeSt).2.collections, c.id ≠ 2) :=
  deleteCollection_cascade_correct (fun _ => false) 1 2 cascadeSt
    (deleteCollection (fun _ => false) 1 2 cascadeSt).2 ⟨2, "Reading", 1, false⟩
    (by decide) (by decide) (by decide) (by decide) (by decide) (by decide) (by decide)
    (by decide) (by decide)

/-- Concrete store for the system-collection rename slip: user 1 owns the
seeded system collection (id 1, name "Unsorted", isSystem true). -/
def renameSt : St := ⟨[⟨1, "a@b.c"⟩], [⟨1, "Unsorted", 1, true⟩], [], [], [], [], 2⟩

/-- C3: the code contradicts the protected-system-collection rule its own 403
message states.  `updateCollection` only rejects requests whose NEW name
normalizes to "unsorted"; a rename request targeting the system collection
with any other name is accepted: here renaming the seeded system collection
to "Stuff" answers 200 and changes its name, where the claim requires 403
with the name unchanged. -/
theorem updateCollection_renames_system_collection :
    (updateCollection 1 (some 1) (some ("Stuff")) renameSt).1 = 200 ∧
      (updateCollection 1 (some 1) (some ("Stuff")) renameSt).2.collections =
        [⟨1, "Stuff", 1, true⟩] ∧
      (∃ c ∈ renameSt.collections, c.id = 1 ∧ c.isSystem = true ∧ c.name = "Unsorted") := by
  decide

/-- Concrete store for the foreign-tag counterexample: tag 10 belongs to
user 2; bookmark 5 belongs to user 1. -/
def foreignTagSt : St :=
  ⟨[⟨1, "a@b.c"⟩, ⟨2, "b@b.c"⟩], [], [⟨10, "other", 2⟩],
   [⟨5, "https://x", none, none, none, 1⟩], [], [], 20⟩

/-- C5 counterexample: user 1 updates their bookmark 5 with the tag reference
`{id: 10, name: "x"}`, where tag 10 exists but belongs to user 2.  The update
honors the foreign id — the bookmark ends linked to user 2's tag and no tag
of user 1 is involved — contradicting "an incoming tag id is honored only if
that tag still belongs to the caller". -/
theorem updateBookmark_honors_foreign_tag_id :
    (updateBookmark 1 5 ⟨none, none, none, some [⟨some 10, "x"⟩], none⟩ foreignTagSt).1 = 200 ∧
      (5, 10) ∈
        (updateBookmark 1 5 ⟨none, none, none, some [⟨some 10, "x"⟩], none⟩
          foreignTagSt).2.bookmarkTags ∧
      (∀ t ∈ foreignTagSt.tags, t.id = 10 → t.userId = 2) ∧
      (∀ t ∈ (updateBookmark 1 5 ⟨none, none, none, some [⟨some 10, "x"⟩], none⟩
          foreignTagSt).2.tags, t.id = 10 → t.userId = 2) := by
  decide

/-- Concrete store for the tag-normalization counterexample: user 1, no tags
or bookmarks yet. -/
def rawTagSt : St := ⟨[⟨1, "a@b.c"⟩], [], [], [], [], [], 10⟩

/-- C9 counterexample: via the explicit create-tag endpoint, creating "Work "
and then " work" for the same user stores BOTH names verbatim — two distinct
rows, neither named "work" — contradicting "no second row with a
differently-cased or differently-trimmed variant of the same name is ever
created for that user". -/
theorem createTag_stores_unnormalized_variants :
    ((createTag 1 (some (" work")) (createTag 1 (some ("Work ")) rawTagSt).2).2.tags.filter
        (fun t => t.userId == 1)).map Tagg.name = ["Work ", " work"] ∧
      (createTag 1 (some ("Work ")) rawTagSt).1 = 201 ∧
      (createTag 1 (some (" work")) (createTag 1 (some ("Work ")) rawTagSt).2).1 = 201 ∧
      (∀ t ∈ (createTag 1 (some (" work"))
          (createTag 1 (some ("Work ")) rawTagSt).2).2.tags, t.name ≠ "work") := by
  decide

theorem find?_none_of_not_owned_url (s : St) (w : Nat) (url : String)
    (h : ∀ b ∈ s.bookmarks, b.userId = w → b.url ≠ url) :
    s.bookmarks.find? (fun b => b.userId == w && b.url == url) = none := by
  rw [List.find?_eq_none]
  intro b hb
  simp only [Bool.and_eq_true, beq_iff_eq, not_and]
  intro h1 h2
  exact h b hb h1 h2

theorem addBookmark_success_shape (u : Nat) (url : String) (fo : FetchOutcome) (s : St)
    (hurl : url ≠ "")
    (hfind : s.bookmarks.find? (fun b => b.userId == u && b.url == url) = none) :
    addBookmark none u (some url) fo s =
      (201, { s with
        bookmarks := s.bookmarks ++
          [⟨s.nextId, url, some (jsOr (fetchMetadata fo).title (strTake url 100)),
            (fetchMetadata fo).description, (fetchMetadata fo).imageUrl, u⟩],
        bookmarkCollections :=
          match (s.bookmarks.filter (fun b => b.userId == u)).getLast? with
          | some rb => match ((s.bookmarkCollections.filter (fun p => p.1 == rb.id)).map
              (fun p => p.2)).head? with
            | some cd => connectLink s.nextId cd s.bookmarkCollections
            | none => s.bookmarkCollections
          | none => s.bookmarkCollections,
        bookmarkTags :=
          match (s.bookmarks.filter (fun b => b.userId == u)).getLast? with
          | some rb => match ((s.bookmarkTags.filter (fun p => p.1 == rb.id)).map
              (fun p => p.2)).head? with
            | some td => connectLink s.nextId td s.bookmarkTags
            | none => s.bookmarkTags
          | none => s.bookmarkTags,
        nextId := s.nextId + 1 }) := by
  simp only [addBookmark, hfind, if_neg hurl]
  cases (List.filter (fun b => b.userId == u) s.bookmarks).getLast? <;> rfl

/-- C7: the metadata resolver is a total function that returns the empty
result on a thrown fetch or timeout, on a non-successful response, and on a
non-HTML content type; and in that case bookmark creation still succeeds,
storing the first 100 characters of the url as the title. -/
theorem fetchMetadata_failure_empty_and_fallback :
    fetchMetadata FetchOutcome.err = ⟨none, none, none⟩ ∧
    (∀ ct pg, fetchMetadata (FetchOutcome.resp false ct pg) = ⟨none, none, none⟩) ∧
    (∀ ok ct pg, containsSub ct ("html") = false →
      fetchMetadata (FetchOutcome.resp ok ct pg) = ⟨none, none, none⟩) ∧
    (∀ (s : St) (u : Nat) (url : String) (fo : FetchOutcome),
      url ≠ "" →
      (∀ b ∈ s.bookmarks, b.userId = u → b.url ≠ url) →
      fetchMetadata fo = ⟨none, none, none⟩ →
      (addBookmark none u (some url) fo s).1 = 201 ∧
      ∃ b ∈ (addBookmark none u (some url) fo s).2.bookmarks,
        b.url = url ∧ b.userId = u ∧ b.title = some (strTake url 100)) := by
  refine ⟨rfl, fun ct pg => rfl, ?_, ?_⟩
  · intro ok ct pg h
    cases ok <;> simp [fetchMetadata, h]
  · intro s u url fo hurl hnew hmeta
    have hfind := find?_none_of_not_owned_url s u url hnew
    rw [addBookmark_success_shape u url fo s hurl hfind]
    refine ⟨rfl, ⟨s.nextId, url, some (jsOr (fetchMetadata fo).title (strTake url 100)),
      (fetchMetadata fo).description, (fetchMetadata fo).imageUrl, u⟩, ?_, rfl, rfl, ?_⟩
    · simp
    · rw [hmeta]
      rfl

/-- Witness for C7: a concrete unreachable-fetch outcome and a fresh store. -/
theorem fetchMetadata_failure_empty_and_fallback_witness :
    (addBookmark none 1 (some ("https://unreachable.example")) FetchOutcome.err
        ⟨[⟨1, "a@b.c"⟩], [], [], [], [], [], 2⟩).1 = 201 ∧
    ∃ b ∈ (addBookmark none 1 (some ("https://unreachable.example")) FetchOutcome.err
        ⟨[⟨1, "a@b.c"⟩], [], [], [], [], [], 2⟩).2.bookmarks,
      b.url = "https://unreachable.example" ∧ b.userId = 1 ∧
      b.title = some (strTake ("https://unreachable.example") 100) :=
  fetchMetadata_failure_empty_and_fallback.2.2.2
    ⟨[⟨1, "a@b.c"⟩], [], [], [], [], [], 2⟩ 1 ("https://unreachable.example")
    FetchOutcome.err (by decide) (by decide) rfl

/-- C8: creating the same url twice for the same user answers 409 on the
second attempt and leaves the store unchanged; the same url for a different
user succeeds; and a storage-layer `P2002` unique-constraint violation at the
create (a concurrent duplicate insert) is mapped to 409, not to 500. -/
theorem addBookmark_duplicate_conflict (s : St) (u v : Nat) (url : String)
    (fo fo2 fo3 : FetchOutcome) (ce : Option Nat)
    (hurl : url ≠ "")
    (hnew : ∀ b ∈ s.bookmarks, b.userId = u → b.url ≠ url)
    (hv : v ≠ u)
    (hvnew : ∀ b ∈ s.bookmarks, b.userId = v → b.url ≠ url) :
    (addBookmark none u (some url) fo s).1 = 201 ∧
    addBookmark ce u (some url) fo2 (addBookmark none u (some url) fo s).2 =
      (409, (addBookmark none u (some url) fo s).2) ∧
    (addBookmark none v (some url) fo3 (addBookmark none u (some url) fo s).2).1 = 201 ∧
    addBookmark (some 2002) u (some url) fo s = (409, s) := by
  have hfindu := find?_none_of_not_owned_url s u url hnew
  have hfindv := find?_none_of_not_owned_url s v url hvnew
  have h1 := addBookmark_success_shape u url fo s hurl hfindu
  have hne2 : u ≠ v := fun h => hv h.symm
  refine ⟨by rw [h1], ?_, ?_, ?_⟩
  · rw [h1]
    simp only [addBookmark, if_neg hurl]
    rw [List.find?_append, hfindu]
    simp [List.find?]
  · rw [h1]
    simp only [addBookmark, if_neg hurl]
    rw [List.find?_append, hfindv]
    have hbeq : (u == v) = false := by simpa using hne2
    simp [List.find?, hbeq]
  · simp only [addBookmark, hfindu, if_neg hurl]

/-- Concrete store for the C8 witness: user 1 and user 2, no bookmarks
yet. -/
def dupSt : St := ⟨[⟨1, "a@b.c"⟩, ⟨2, "b@b.c"⟩], [], [], [], [], [], 3⟩

/-- Witness for C8 at a concrete store. -/
theorem addBookmark_duplicate_conflict_witness :
    (addBookmark none 1 (some ("https://example.com")) FetchOutcome.err dupSt).1 = 201 ∧
    addBookmark none 1 (some ("https://example.com")) FetchOutcome.err
        (addBookmark none 1 (some ("https://example.com")) FetchOutcome.err dupSt).2 =
      (409, (addBookmark none 1 (some ("https://example.com")) FetchOutcome.err dupSt).2) ∧
    (addBookmark none 2 (some ("https://example.com")) FetchOutcome.err
        (addBookmark none 1 (some ("https://example.com")) FetchOutcome.err dupSt).2).1 = 201 ∧
    addBookmark (some 2002) 1 (some ("https://example.com")) FetchOutcome.err dupSt =
      (409, dupSt) :=
  addBookmark_duplicate_conflict dupSt 1 2 ("https://example.com")
    FetchOutcome.err FetchOutcome.err FetchOutcome.err none
    (by decide) (by decide) (by decide) (by decide)

/-- C10: with every seeding create failing, `registerUser` still answers 201:
the new user exists, yet has no collection at all (in particular no
`isSystem` one) and no default tag — `seedUserData` swallows the errors. -/
theorem registerUser_swallows_seed_failure (s : St) (e p : String)
    (he : emailOk e = true) (hne : e ≠ "") (hp : p ≠ "")
    (hfresh : ∀ u ∈ s.users, u.email ≠ e)
    (hnocol : ∀ c ∈ s.collections, c.userId ≠ s.nextId)
    (hnotag : ∀ t ∈ s.tags, t.userId ≠ s.nextId) :
    (registerUser (fun _ => true) (some e) (some p) s).1 = 201 ∧
    (∃ w ∈ (registerUser (fun _ => true) (some e) (some p) s).2.users,
      w.email = e ∧ w.id = s.nextId) ∧
    (∀ c ∈ (registerUser (fun _ => true) (some e) (some p) s).2.collections,
      ¬(c.userId = s.nextId ∧ c.isSystem = true)) ∧
    (∀ t ∈ (registerUser (fun _ => true) (some e) (some p) s).2.tags,
      t.userId ≠ s.nextId) := by
  have hfind : s.users.find? (fun w => w.email == e) = none := by
    rw [List.find?_eq_none]
    intro w hw
    simpa using hfresh w hw
  have hres : registerUser (fun _ => true) (some e) (some p) s =
      (201, { s with users := s.users ++ [⟨s.nextId, e⟩], nextId := s.nextId + 1 }) := by
    unfold registerUser seedUserData
    simp [hfind, hne, hp, he]
  rw [hres]
  refine ⟨rfl, ⟨⟨s.nextId, e⟩, by simp, rfl, rfl⟩, ?_, ?_⟩
  · intro c hc
    rintro ⟨hcu, _⟩
    exact hnocol c hc hcu
  · intro t ht
    exact hnotag t ht

/-- Witness for C10 at the empty store. -/
theorem registerUser_swallows_seed_failure_witness :
    (registerUser (fun _ => true) (some ("a@b.c")) (some ("pw"))
        ⟨[], [], [], [], [], [], 0⟩).1 = 201 ∧
    (∃ w ∈ (registerUser (fun _ => true) (some ("a@b.c")) (some ("pw"))
        ⟨[], [], [], [], [], [], 0⟩).2.users, w.email = "a@b.c" ∧ w.id = 0) ∧
    (∀ c ∈ (registerUser (fun _ => true) (some ("a@b.c")) (some ("pw"))
        ⟨[], [], [], [], [], [], 0⟩).2.collections,
      ¬(c.userId = 0 ∧ c.isSystem = true)) ∧
    (∀ t ∈ (registerUser (fun _ => true) (some ("a@b.c")) (some ("pw"))
        ⟨[], [], [], [], [], [], 0⟩).2.tags, t.userId ≠ 0) :=
  registerUser_swallows_seed_failure ⟨[], [], [], [], [], [], 0⟩ ("a@b.c") ("pw")
    (by decide) (by decide) (by decide) (by decide) (by decide) (by decide)

/-! Helper lemmas about tag resolution and replace-set link writes. -/

theorem resolveTag_shape (u : Nat) (tin : TagInput) (s : St) :
    (resolveTag u tin s).2 = s ∨
      (resolveTag u tin s).2 =
        { s with tags := s.tags ++ [⟨s.nextId, normName tin.name, u⟩],
                 nextId := s.nextId + 1 } := by
  unfold resolveTag resolveByName
  cases tin.id with
  | none =>
    simp only []
    cases s.tags.find? (fun t => t.name == normName tin.name && t.userId == u) with
    | some t => exact Or.inl rfl
    | none => exact Or.inr rfl
  | some tid =>
    simp only []
    cases s.tags.find? (fun t => t.id == tid) with
    | some t => exact Or.inl rfl
    | none =>
      simp only []
      cases s.tags.find? (fun t => t.name == normName tin.name && t.userId == u) with
      | some t => exact Or.inl rfl
      | none => exact Or.inr rfl

theorem resolveTags_fields (u : Nat) (tins : List TagInput) (s : St) :
    (resolveTags u tins s).2.bookmarkCollections = s.bookmarkCollections ∧
    (resolveTags u tins s).2.bookmarkTags = s.bookmarkTags ∧
    (resolveTags u tins s).2.bookmarks = s.bookmarks ∧
    (resolveTags u tins s).2.collections = s.collections := by
  induction tins generalizing s with
  | nil => exact ⟨rfl, rfl, rfl, rfl⟩
  | cons t ts ih =>
    have hstep : (resolveTags u (t :: ts) s).2 = (resolveTags u ts (resolveTag u t s).2).2 := rfl
    rw [hstep]
    rcases resolveTag_shape u t s with h | h
    · rw [h]; exact ih s
    · rw [h]
      exact ih { s with tags := s.tags ++ [⟨s.nextId, normName t.name, u⟩],
                        nextId := s.nextId + 1 }

theorem mem_foldl_insert (bid : Nat) (ids : List Nat) (acc : List (Nat × Nat))
    (x : Nat × Nat) :
    x ∈ ids.foldl (fun acc d => if (bid, d) ∈ acc then acc else acc ++ [(bid, d)]) acc ↔
      x ∈ acc ∨ (x.1 = bid ∧ x.2 ∈ ids) := by
  obtain ⟨x1, x2⟩ := x
  induction ids generalizing acc with
  | nil => simp
  | cons d ds ih =>
    simp only [List.foldl_cons]
    by_cases hmem : (bid, d) ∈ acc
    · rw [if_pos hmem, ih]
      simp only [List.mem_cons]
      constructor
      · rintro (h | ⟨h1, h2⟩)
        · exact Or.inl h
        · exact Or.inr ⟨h1, Or.inr h2⟩
      · rintro (h | ⟨h1, (h2 | h2)⟩)
        · exact Or.inl h
        · subst h1; subst h2; exact Or.inl hmem
        · exact Or.inr ⟨h1, h2⟩
    · rw [if_neg hmem, ih]
      simp only [List.mem_append, List.mem_singleton, List.mem_cons, List.not_mem_nil,
        or_false, Prod.mk.injEq]
      tauto

theorem mem_setLinks (bid : Nat) (ids : List Nat) (l : List (Nat × Nat)) (x : Nat × Nat) :
    x ∈ setLinks bid ids l ↔ (x.1 = bid ∧ x.2 ∈ ids) ∨ (x ∈ l ∧ x.1 ≠ bid) := by
  unfold setLinks
  rw [mem_foldl_insert]
  simp only [List.mem_filter, decide_eq_true_eq]
  tauto

/-- C4: on a bookmark owned by the caller, an update always answers 200, and:
`tags: []` leaves the bookmark with zero tag links, omitting `tags` leaves the
tag join table exactly as it was, and omitting `collections` leaves the
collection join table exactly as it was. -/
theorem updateBookmark_empty_vs_omitted (s : St) (u bid : Nat) (body : UpdateBody)
    (bk : Bookmark)
    (hfind : s.bookmarks.find? (fun b => b.id == bid && b.userId == u) = some bk) :
    (updateBookmark u bid body s).1 = 200 ∧
    (body.tags = some [] → ∀ t, (bid, t) ∉ (updateBookmark u bid body s).2.bookmarkTags) ∧
    (body.tags = none → (updateBookmark u bid body s).2.bookmarkTags = s.bookmarkTags) ∧
    (body.collections = none →
      (updateBookmark u bid body s).2.bookmarkCollections = s.bookmarkCollections) := by
  refine ⟨?_, ?_, ?_, ?_⟩
  · simp only [updateBookmark, hfind]
  · intro htags t
    simp only [updateBookmark, hfind, htags, resolveTags]
    rw [mem_setLinks]
    simp
  · intro htags
    simp only [updateBookmark, hfind, htags]
  · intro hcols
    cases hbt : body.tags with
    | none => simp only [updateBookmark, hfind, hcols, hbt]
    | some tins =>
      simp only [updateBookmark, hfind, hcols, hbt]
      exact (resolveTags_fields u tins s).1

/-- Concrete store for the C4 witness: bookmark 5 of user 1 has one tag link
and one collection link. -/
def frameSt : St :=
  ⟨[⟨1, "a@b.c"⟩], [⟨2, "Reading", 1, false⟩], [⟨10, "work", 1⟩],
   [⟨5, "https://x", none, none, none, 1⟩], [(5, 10)], [(5, 2)], 20⟩

/-- Witness for C4 at a concrete store: clearing tags with `[]` removes the
link, while omitting `tags`/`collections` leaves the join tables unchanged. -/
theorem updateBookmark_empty_vs_omitted_witness :
    (updateBookmark 1 5 ⟨none, none, none, some [], none⟩ frameSt).1 = 200 ∧
    (5, 10) ∉ (updateBookmark 1 5 ⟨none, none, none, some [], none⟩ frameSt).2.bookmarkTags ∧
    (updateBookmark 1 5 ⟨some ("T"), none, none, none, none⟩ frameSt).2.bookmarkTags =
      frameSt.bookmarkTags ∧
    (updateBookmark 1 5 ⟨some ("T"), none, none, none, none⟩ frameSt).2.bookmarkCollections =
      frameSt.bookmarkCollections :=
  ⟨(updateBookmark_empty_vs_omitted frameSt 1 5 ⟨none, none, none, some [], none⟩
      ⟨5, "https://x", none, none, none, 1⟩ (by decide)).1,
   (updateBookmark_empty_vs_omitted frameSt 1 5 ⟨none, none, none, some [], none⟩
      ⟨5, "https://x", none, none, none, 1⟩ (by decide)).2.1 rfl 10,
   (updateBookmark_empty_vs_omitted frameSt 1 5 ⟨some ("T"), none, none, none, none⟩
      ⟨5, "https://x", none, none, none, 1⟩ (by decide)).2.2.1 rfl,
   (updateBookmark_empty_vs_omitted frameSt 1 5 ⟨some ("T"), none, none, none, none⟩
      ⟨5, "https://x", none, none, none, 1⟩ (by decide)).2.2.2 rfl⟩

theorem updateBookmark_bkC_shape (s : St) (u bid : Nat) (body : UpdateBody)
    (bk : Bookmark) (cins : List CollectionInput)
    (hfind : s.bookmarks.find? (fun b => b.id == bid && b.userId == u) = some bk)
    (hcols : body.collections = some cins) :
    (updateBookmark u bid body s).2.bookmarkCollections =
      setLinks bid
        (if 0 < cins.length then
          (s.collections.filter
            (fun c => (cins.map (fun ci => ci.id)).contains c.id && c.userId == u)).map
              (fun c => c.id)
         else []) s.bookmarkCollections := by
  cases hbt : body.tags with
  | none => simp only [updateBookmark, hfind, hcols, hbt]
  | some tins =>
    simp only [updateBookmark, hfind, hcols, hbt]
    rw [(resolveTags_fields u tins s).1]

/-- C6: on a bookmark owned by the caller, an update supplying `collections`
answers 200 even when some submitted ids are not owned by the caller, and the
bookmark's collection-link set afterwards is exactly the owned subset of the
submitted ids. -/
theorem updateBookmark_collections_owned_subset (s : St) (u bid : Nat)
    (body : UpdateBody) (bk : Bookmark) (cins : List CollectionInput)
    (hfind : s.bookmarks.find? (fun b => b.id == bid && b.userId == u) = some bk)
    (hcols : body.collections = some cins) :
    (updateBookmark u bid body s).1 = 200 ∧
    ∀ d, ((bid, d) ∈ (updateBookmark u bid body s).2.bookmarkCollections ↔
      ((∃ ci ∈ cins, ci.id = d) ∧ ∃ c ∈ s.collections, c.id = d ∧ c.userId = u)) := by
  refine ⟨by simp only [updateBookmark, hfind], ?_⟩
  intro d
  rw [updateBookmark_bkC_shape s u bid body bk cins hfind hcols, mem_setLinks]
  simp only [ne_eq, not_true_eq_false, and_false, or_false, true_and]
  cases cins with
  | nil => simp
  | cons c0 cs =>
    rw [if_pos (by simp)]
    simp only [List.mem_map, List.mem_filter, Bool.and_eq_true, beq_iff_eq,
      List.elem_iff, decide_eq_true_eq]
    constructor
    · rintro ⟨c, ⟨hcmem, hin, hcu⟩, hcd⟩
      obtain ⟨ci, hcim, hcid⟩ := hin
      exact ⟨⟨ci, hcim, hcid.trans hcd⟩, c, hcmem, hcd, hcu⟩
    · rintro ⟨⟨ci, hcim, hcid⟩, c, hcmem, hcd, hcu⟩
      exact ⟨c, ⟨hcmem, ⟨ci, hcim, hcid.trans hcd.symm⟩, hcu⟩, hcd⟩

/-- Concrete store for the C6 witness: user 1 owns collection 2; collection 9
belongs to user 2. -/
def ownSt : St :=
  ⟨[⟨1, "a@b.c"⟩, ⟨2, "b@b.c"⟩], [⟨2, "Mine", 1, false⟩, ⟨9, "Theirs", 2, false⟩], [],
   [⟨5, "https://x", none, none, none, 1⟩], [], [], 20⟩

/-- Witness for C6 at a concrete store: submitting the owned id 2 and the
foreign id 9 succeeds, links exactly collection 2 and drops 9 silently. -/
theorem updateBookmark_collections_owned_subset_witness :
    (updateBookmark 1 5 ⟨none, none, none, none, some [⟨2⟩, ⟨9⟩]⟩ ownSt).1 = 200 ∧
    ((5, 2) ∈ (updateBookmark 1 5 ⟨none, none, none, none, some [⟨2⟩, ⟨9⟩]⟩
      ownSt).2.bookmarkCollections) ∧
    ¬((5, 9) ∈ (updateBookmark 1 5 ⟨none, none, none, none, some [⟨2⟩, ⟨9⟩]⟩
      ownSt).2.bookmarkCollections) :=
  ⟨(updateBookmark_collections_owned_subset ownSt 1 5 ⟨none, none, none, none,
      some [⟨2⟩, ⟨9⟩]⟩ ⟨5, "https://x", none, none, none, 1⟩ [⟨2⟩, ⟨9⟩]
      (by decide) rfl).1,
   ((updateBookmark_collections_owned_subset ownSt 1 5 ⟨none, none, none, none,
      some [⟨2⟩, ⟨9⟩]⟩ ⟨5, "https://x", none, none, none, 1⟩ [⟨2⟩, ⟨9⟩]
      (by decide) rfl).2 2).mpr (by decide),
   fun hmem => by
    have h := ((updateBookmark_collections_owned_subset ownSt 1 5 ⟨none, none, none, none,
      some [⟨2⟩, ⟨9⟩]⟩ ⟨5, "https://x", none, none, none, 1⟩ [⟨2⟩, ⟨9⟩]
      (by decide) rfl).2 9).mp hmem
    exact absurd h (by decide)⟩

/-- C5 (amended): in a tag update, an incoming tag id is honored whenever a
tag with that id EXISTS — no ownership check is made — and only when no such
tag exists does resolution fall back to the per-owner find-or-create keyed by
the trimmed, lower-cased name; the bookmark's tag-link set becomes exactly
the resolved set. -/
theorem updateBookmark_tag_id_any_owner (s : St) (u bid tid : Nat) (nm : String)
    (body : UpdateBody) (bk : Bookmark)
    (hfind : s.bookmarks.find? (fun b => b.id == bid && b.userId == u) = some bk)
    (htags : body.tags = some [⟨some tid, nm⟩]) :
    (updateBookmark u bid body s).1 = 200 ∧
    (∀ t0, s.tags.find? (fun t => t.id == tid) = some t0 →
      ∀ d, ((bid, d) ∈ (updateBookmark u bid body s).2.bookmarkTags ↔ d = t0.id)) ∧
    (s.tags.find? (fun t => t.id == tid) = none →
      ∀ t1, s.tags.find? (fun t => t.name == normName nm && t.userId == u) = some t1 →
        ∀ d, ((bid, d) ∈ (updateBookmark u bid body s).2.bookmarkTags ↔ d = t1.id)) ∧
    (s.tags.find? (fun t => t.id == tid) = none →
      s.tags.find? (fun t => t.name == normName nm && t.userId == u) = none →
      (∃ t ∈ (updateBookmark u bid body s).2.tags,
        t.id = s.nextId ∧ t.name = normName nm ∧ t.userId = u) ∧
      ∀ d, ((bid, d) ∈ (updateBookmark u bid body s).2.bookmarkTags ↔ d = s.nextId)) := by
  refine ⟨by simp only [updateBookmark, hfind], ?_, ?_, ?_⟩
  · intro t0 hfid d
    simp only [updateBookmark, hfind, htags, resolveTags, resolveTag, hfid]
    rw [mem_setLinks]
    simp
  · intro hfid t1 hname d
    simp only [updateBookmark, hfind, htags, resolveTags, resolveTag, resolveByName,
      hfid, hname]
    rw [mem_setLinks]
    simp
  · intro hfid hname
    constructor
    · simp only [updateBookmark, hfind, htags, resolveTags, resolveTag, resolveByName,
        hfid, hname]
      exact ⟨⟨s.nextId, normName nm, u⟩, by simp, rfl, rfl, rfl⟩
    · intro d
      simp only [updateBookmark, hfind, htags, resolveTags, resolveTag, resolveByName,
        hfid, hname]
      rw [mem_setLinks]
      simp

/-- Witness for the amended C5: on `foreignTagSt` the existing foreign tag id
10 (owner 2) is honored for user 1's bookmark 5. -/
theorem updateBookmark_tag_id_any_owner_witness :
    (updateBookmark 1 5 ⟨none, none, none, some [⟨some 10, "x"⟩], none⟩ foreignTagSt).1 = 200 ∧
    (5, 10) ∈ (updateBookmark 1 5 ⟨none, none, none, some [⟨some 10, "x"⟩], none⟩
      foreignTagSt).2.bookmarkTags :=
  ⟨(updateBookmark_tag_id_any_owner foreignTagSt 1 5 10 ("x")
      ⟨none, none, none, some [⟨some 10, "x"⟩], none⟩
      ⟨5, "https://x", none, none, none, 1⟩ (by decide) rfl).1,
   ((updateBookmark_tag_id_any_owner foreignTagSt 1 5 10 ("x")
      ⟨none, none, none, some [⟨some 10, "x"⟩], none⟩
      ⟨5, "https://x", none, none, none, 1⟩ (by decide) rfl).2.1
      ⟨10, "other", 2⟩ (by decide) 10).mpr rfl⟩

/-- Resolving the same normalized name twice in a row: the second resolution
finds what the first found or created, so the ids agree and no second row
appears. -/
theorem resolveByName_twice (u : Nat) (nm : String) (s : St) :
    (resolveByName u nm (resolveByName u nm s).2).1 = (resolveByName u nm s).1 ∧
    (resolveByName u nm (resolveByName u nm s).2).2.tags = (resolveByName u nm s).2.tags ∧
    (∃ t ∈ (resolveByName u nm s).2.tags,
      t.id = (resolveByName u nm s).1 ∧ t.name = nm ∧ t.userId = u) ∧
    ((resolveByName u nm s).2.tags = s.tags ∨
      (resolveByName u nm s).2.tags = s.tags ++ [⟨s.nextId, nm, u⟩]) := by
  cases hf : s.tags.find? (fun t => t.name == nm && t.userId == u) with
  | some t =>
    have h1 : resolveByName u nm s = (t.id, s) := by
      unfold resolveByName
      rw [hf]
    have ht := List.find?_some hf
    simp only [Bool.and_eq_true, beq_iff_eq] at ht
    refine ⟨?_, ?_, ?_, ?_⟩
    · rw [h1]
      exact congrArg Prod.fst h1
    · rw [h1]
      exact congrArg (fun r => r.2.tags) h1
    · rw [h1]
      exact ⟨t, List.mem_of_find?_eq_some hf, rfl, ht.1, ht.2⟩
    · rw [h1]
      exact Or.inl rfl
  | none =>
    have h1 : resolveByName u nm s =
        (s.nextId, { s with tags := s.tags ++ [⟨s.nextId, nm, u⟩],
                            nextId := s.nextId + 1 }) := by
      unfold resolveByName
      rw [hf]
    have hf2 : (s.tags ++ [(⟨s.nextId, nm, u⟩ : Tagg)]).find?
        (fun t => t.name == nm && t.userId == u) = some ⟨s.nextId, nm, u⟩ := by
      rw [List.find?_append, hf]
      simp [List.find?]
    have h2gen : ∀ s4 : St,
        s4.tags.find? (fun t => t.name == nm && t.userId == u) = some ⟨s.nextId, nm, u⟩ →
        resolveByName u nm s4 = (s.nextId, s4) := by
      intro s4 h4
      unfold resolveByName
      rw [h4]
    have h2 := h2gen
      { s with tags := s.tags ++ [⟨s.nextId, nm, u⟩], nextId := s.nextId + 1 } hf2
    refine ⟨?_, ?_, ?_, ?_⟩
    · rw [h1]
      exact congrArg Prod.fst h2
    · rw [h1]
      exact congrArg (fun r => r.2.tags) h2
    · rw [h1]
      exact ⟨⟨s.nextId, nm, u⟩, by simp, rfl, rfl, rfl⟩
    · rw [h1]
      exact Or.inr rfl

/-- C9 (amended): the bookmark-update tag-resolution path is idempotent under
name normalization — resolving two names with the same trimmed, lower-cased
form yields the same tag id, creates at most one row, and that row stores the
normalized name; the explicit create-tag endpoint, by contrast, stores the
submitted name verbatim whenever it creates. -/
theorem resolveByName_normalized_idempotent (s : St) (u : Nat) (n1 n2 : String)
    (h : normName n1 = normName n2) :
    (resolveTag u ⟨none, n2⟩ (resolveTag u ⟨none, n1⟩ s).2).1 =
      (resolveTag u ⟨none, n1⟩ s).1 ∧
    (resolveTag u ⟨none, n2⟩ (resolveTag u ⟨none, n1⟩ s).2).2.tags =
      (resolveTag u ⟨none, n1⟩ s).2.tags ∧
    (∃ t ∈ (resolveTag u ⟨none, n1⟩ s).2.tags,
      t.id = (resolveTag u ⟨none, n1⟩ s).1 ∧ t.name = normName n1 ∧ t.userId = u) ∧
    ((resolveTag u ⟨none, n1⟩ s).2.tags = s.tags ∨
      (resolveTag u ⟨none, n1⟩ s).2.tags = s.tags ++ [⟨s.nextId, normName n1, u⟩]) ∧
    (∀ (s3 : St) (nm : String), (createTag u (some nm) s3).1 = 201 →
      (createTag u (some nm) s3).2.tags = s3.tags ++ [⟨s3.nextId, nm, u⟩]) := by
  have hcreate : ∀ (s3 : St) (nm : String), (createTag u (some nm) s3).1 = 201 →
      (createTag u (some nm) s3).2.tags = s3.tags ++ [⟨s3.nextId, nm, u⟩] := by
    intro s3 nm h201
    by_cases hemp : nm = ""
    · simp [createTag, hemp] at h201
    · by_cases hconf : (s3.tags.find? (fun t => t.name == nm &&
          s3.bookmarks.any (fun b => b.userId == u && (b.id, t.id) ∈ s3.bookmarkTags))).isSome
      · simp [createTag, hemp, hconf] at h201
      · simp [createTag, hemp, hconf]
  have e1 : ∀ s4 : St, resolveTag u ⟨none, n1⟩ s4 = resolveByName u (normName n1) s4 :=
    fun s4 => rfl
  have e2 : ∀ s4 : St, resolveTag u ⟨none, n2⟩ s4 = resolveByName u (normName n1) s4 := by
    intro s4
    show resolveByName u (normName n2) s4 = resolveByName u (normName n1) s4
    rw [h]
  simp only [e1, e2]
  exact ⟨(resolveByName_twice u (normName n1) s).1, (resolveByName_twice u (normName n1) s).2.1,
    (resolveByName_twice u (normName n1) s).2.2.1, (resolveByName_twice u (normName n1) s).2.2.2,
    hcreate⟩

/-- Witness for the amended C9: resolving "Work " and then " work" for user 1
on a fresh store yields one row storing "work", and the normalized forms
agree. -/
theorem resolveByName_normalized_idempotent_witness :
    normName ("Work ") = "work" ∧
    (resolveTag 1 ⟨none, " work"⟩ (resolveTag 1 ⟨none, "Work "⟩ rawTagSt).2).1 =
      (resolveTag 1 ⟨none, "Work "⟩ rawTagSt).1 ∧
    (resolveTag 1 ⟨none, " work"⟩ (resolveTag 1 ⟨none, "Work "⟩ rawTagSt).2).2.tags =
      (resolveTag 1 ⟨none, "Work "⟩ rawTagSt).2.tags ∧
    (∃ t ∈ (resolveTag 1 ⟨none, "Work "⟩ rawTagSt).2.tags,
      t.id = (resolveTag 1 ⟨none, "Work "⟩ rawTagSt).1 ∧
      t.name = normName ("Work ") ∧ t.userId = 1) :=
  ⟨by decide,
   (resolveByName_normalized_idempotent rawTagSt 1 ("Work ") (" work") (by decide)).1,
   (resolveByName_normalized_idempotent rawTagSt 1 ("Work ") (" work") (by decide)).2.1,
   (resolveByName_normalized_idempotent rawTagSt 1 ("Work ") (" work") (by decide)).2.2.1⟩

end Memora
